import Mathlib

/-!
Verification of the citation-count synchronization utility
(`update_citation_matrix.py`).

The script patches a static HTML file with a fetched citation count:

* `fetch_citation_data_scholarly` / `fetch_citation_data_semantic` return a
  dictionary holding the stringified count, or the sentinel `"Error"`.
* `fix_and_update_citation_matrix` performs three text rewrites on the file
  content: a global regex substitution normalizing every
  `<div id="citation-matrix">...</div>` region to a canonical one holding `0`;
  a single insertion of the canonical region before the first `</body>` when no
  `<span id="citation_count">` is present; and a global regex substitution
  writing the count into every `<span id="citation_count">...</span>`.
  It returns `True` iff the final text differs from the original (after
  rewriting the file), and `False` when the file is missing or unchanged.
* The `__main__` block runs the git side effects exactly when the function
  returned `True`, and the process always exits with code 0.

Documents are modeled as `List Char`.  The regex operations are modeled by
explicit left-to-right scanners that mirror Python `re.sub` semantics for the
three concrete patterns in the source (leftmost non-overlapping matches, the
non-greedy `.*?` stopping at the first occurrence of the closing literal,
`re.DOTALL` on the div pattern but not on the span pattern, `\s+` as one or
more whitespace characters).  Replacement text is inserted literally, which is
exact for the counts the script produces (digit strings and `"Error"`).
-/

namespace CitationMatrix

/-- The literal `<div` that starts the container-opening pattern. -/
def divOpenTag : List Char := "<div".data

/-- The literal `id="citation-matrix">` that ends the container-opening pattern. -/
def idAttr : List Char := "id=\"citation-matrix\">".data

/-- The canonical container opening `<div id="citation-matrix">` (single space). -/
def divOpenCanon : List Char := "<div id=\"citation-matrix\">".data

/-- The inner-span opening literal `<span id="citation_count">`. -/
def spanOpen : List Char := "<span id=\"citation_count\">".data

/-- The literal `</span>`. -/
def spanClose : List Char := "</span>".data

/-- The literal `</div>`. -/
def divClose : List Char := "</div>".data

/-- The literal `</body>`. -/
def bodyClose : List Char := "</body>".data

/-- The sentinel string `"Error"` used by both fetchers. -/
def errStr : List Char := "Error".data

/-- The text of the canonical region up to (and including) the span opening:
`<div id="citation-matrix">Citations: <span id="citation_count">`. -/
def canonPre : List Char :=
  "<div id=\"citation-matrix\">Citations: <span id=\"citation_count\">".data

/-- The canonical marker region holding inner text `x`:
`<div id="citation-matrix">Citations: <span id="citation_count">` x `</span></div>`. -/
def canonRegion (x : List Char) : List Char := canonPre ++ x ++ spanClose ++ divClose

/-- The replacement text of the repair pass: the canonical region holding `0`. -/
def canonRegion0 : List Char := canonRegion ['0']

/-- ASCII whitespace as matched by the regex class `\s`. -/
def isPySpace (c : Char) : Bool :=
  c = ' ' || c = '\t' || c = '\n' || c = '\r' || c = '\x0b' || c = '\x0c'

/-- Drop a (possibly empty) run of whitespace, greedily. -/
def dropSpaces0 : List Char → List Char
  | [] => []
  | c :: cs => if isPySpace c then dropSpaces0 cs else c :: cs

/-- Drop a run of at least one whitespace character (the `\s+` of the pattern);
fails when the first character is not whitespace. -/
def dropSpaces1 : List Char → Option (List Char)
  | [] => none
  | c :: cs => if isPySpace c then some (dropSpaces0 cs) else none

/-- Match the container-opening pattern `<div\s+id="citation-matrix">` at the
head of `s`; on success return the remainder after the match. -/
def matchDivOpen (s : List Char) : Option (List Char) :=
  if divOpenTag.isPrefixOf s then
    (dropSpaces1 (s.drop divOpenTag.length)).bind fun t =>
      if idAttr.isPrefixOf t then some (t.drop idAttr.length) else none
  else none

/-- Scan for the first occurrence of `pat` in `s` (characters before it are the
non-greedy `.*?` under `re.DOTALL`); on success return the suffix after `pat`. -/
def dropAfter (pat : List Char) : List Char → Option (List Char)
  | [] => none
  | c :: cs =>
    if pat.isPrefixOf (c :: cs) then some ((c :: cs).drop pat.length)
    else dropAfter pat cs

/-- Scan for the first occurrence of `</span>` with no newline before it (the
non-greedy `(.*?)(</span>)` without `re.DOTALL`); on success return the suffix
after the `</span>`. -/
def splitCloseNoNl : List Char → Option (List Char)
  | [] => none
  | c :: cs =>
    if spanClose.isPrefixOf (c :: cs) then some ((c :: cs).drop spanClose.length)
    else if c = '\n' then none else splitCloseNoNl cs

/-- Substring test, as Python's `in` on strings (for non-empty `pat`). -/
def containsSubstr (pat : List Char) : List Char → Bool
  | [] => pat.isPrefixOf []
  | c :: cs => pat.isPrefixOf (c :: cs) || containsSubstr pat cs

/-- Python's `str.replace(pat, repl, 1)`: replace the first occurrence of `pat`
by `repl`, or return the text unchanged when `pat` does not occur. -/
def replaceOnce (pat repl : List Char) : List Char → List Char
  | [] => []
  | c :: cs =>
    if pat.isPrefixOf (c :: cs) then repl ++ (c :: cs).drop pat.length
    else c :: replaceOnce pat repl cs

/-- Number of positions of `s` at which `pat` occurs. -/
def countOccur (pat : List Char) : List Char → Nat
  | [] => 0
  | c :: cs => (if pat.isPrefixOf (c :: cs) then 1 else 0) + countOccur pat cs

/-! ### Length bounds for the scanners (used for fuel sufficiency). -/

theorem dropSpaces0_length (s : List Char) : (dropSpaces0 s).length ≤ s.length := by
  induction s with
  | nil => simp [dropSpaces0]
  | cons c cs ih =>
    simp only [dropSpaces0]
    split
    · exact le_trans ih (by simp)
    · simp

theorem dropSpaces1_length {s t : List Char} (h : dropSpaces1 s = some t) :
    t.length < s.length := by
  cases s with
  | nil => simp [dropSpaces1] at h
  | cons c cs =>
    simp only [dropSpaces1] at h
    split at h
    · cases h
      exact lt_of_le_of_lt (dropSpaces0_length cs) (by simp)
    · cases h

theorem matchDivOpen_length {s t : List Char} (h : matchDivOpen s = some t) :
    t.length < s.length := by
  unfold matchDivOpen at h
  split at h
  · rw [Option.bind_eq_some] at h
    obtain ⟨u, h1, h2⟩ := h
    split at h2
    · injection h2 with h'
      subst h'
      have hu : u.length < (s.drop divOpenTag.length).length := dropSpaces1_length h1
      have hd : (s.drop divOpenTag.length).length ≤ s.length := by simp
      have h3 : (u.drop idAttr.length).length ≤ u.length := by simp
      omega
    · exact absurd h2 (by simp)
  · exact absurd h (by simp)

theorem dropAfter_length {pat s t : List Char} (h : dropAfter pat s = some t) :
    t.length ≤ s.length := by
  induction s with
  | nil => simp [dropAfter] at h
  | cons c cs ih =>
    simp only [dropAfter] at h
    split at h
    · cases h; simp
    · exact le_trans (ih h) (by simp)

theorem splitCloseNoNl_length {s t : List Char} (h : splitCloseNoNl s = some t) :
    t.length ≤ s.length := by
  induction s with
  | nil => simp [splitCloseNoNl] at h
  | cons c cs ih =>
    simp only [splitCloseNoNl] at h
    split at h
    · cases h; simp
    · split at h
      · cases h
      · exact le_trans (ih h) (by simp)

/-! ### The repair pass

`re.sub(r'<div\s+id="citation-matrix">.*?</div>', CANON0, html, flags=re.DOTALL)`:
scan left to right; at a position where the opening pattern matches and a
`</div>` follows, emit the canonical `0` region and continue after the
`</div>`; otherwise emit one character and continue.  The recursion consumes a
computed suffix, so it is phrased with a fuel argument (any fuel at least the
length of the text is sufficient, see `fixSubF_fuelEq`). -/

def fixSubF : Nat → List Char → List Char
  | _, [] => []
  | 0, s => s
  | f + 1, c :: cs =>
    match matchDivOpen (c :: cs) with
    | some rest =>
      match dropAfter divClose rest with
      | some rest2 => canonRegion0 ++ fixSubF f rest2
      | none => c :: fixSubF f cs
    | none => c :: fixSubF f cs

/-- The repair pass of `fix_and_update_citation_matrix` (first `re.sub`). -/
def fixSub (s : List Char) : List Char := fixSubF s.length s

/-! ### The count-update pass

`re.sub(r'(<span id="citation_count">)(.*?)(</span>)', ..., fixed_html)`
(no `re.DOTALL`, global): at a position where the span opening matches and a
`</span>` is reachable without crossing a newline, emit the opening, the count
and `</span>`, and continue after the `</span>`. -/

def updateSubF (cnt : List Char) : Nat → List Char → List Char
  | _, [] => []
  | 0, s => s
  | f + 1, c :: cs =>
    match spanOpen.isPrefixOf (c :: cs) with
    | true =>
      match splitCloseNoNl ((c :: cs).drop spanOpen.length) with
      | some rest => spanOpen ++ cnt ++ spanClose ++ updateSubF cnt f rest
      | none => c :: updateSubF cnt f cs
    | false => c :: updateSubF cnt f cs

/-- The count-update pass of `fix_and_update_citation_matrix` (second `re.sub`). -/
def updateSub (cnt s : List Char) : List Char := updateSubF cnt s.length s

theorem fixSubF_fuelEq : ∀ f g : Nat, ∀ s : List Char,
    s.length ≤ f → s.length ≤ g → fixSubF f s = fixSubF g s := by
  intro f
  induction f with
  | zero =>
    intro g s hf _
    have : s = [] := List.length_eq_zero.mp (Nat.le_zero.mp hf)
    subst this
    simp [fixSubF]
  | succ f ih =>
    intro g s hf hg
    cases s with
    | nil => simp [fixSubF]
    | cons c cs =>
      cases g with
      | zero => exact absurd hg (by simp)
      | succ g =>
        have hcs : cs.length ≤ f := by simpa using hf
        have hcs' : cs.length ≤ g := by simpa using hg
        simp only [fixSubF]
        cases h1 : matchDivOpen (c :: cs) with
        | some rest =>
          dsimp only
          cases h2 : dropAfter divClose rest with
          | some rest2 =>
            dsimp only
            have hlen : rest2.length ≤ cs.length := by
              have ha := matchDivOpen_length h1
              have hb := dropAfter_length h2
              simp only [List.length_cons] at ha
              omega
            rw [ih g rest2 (le_trans hlen hcs) (le_trans hlen hcs')]
          | none => dsimp only; rw [ih g cs hcs hcs']
        | none => dsimp only; rw [ih g cs hcs hcs']

theorem updateSubF_fuelEq (cnt : List Char) : ∀ f g : Nat, ∀ s : List Char,
    s.length ≤ f → s.length ≤ g → updateSubF cnt f s = updateSubF cnt g s := by
  intro f
  induction f with
  | zero =>
    intro g s hf _
    have : s = [] := List.length_eq_zero.mp (Nat.le_zero.mp hf)
    subst this
    simp [updateSubF]
  | succ f ih =>
    intro g s hf hg
    cases s with
    | nil => simp [updateSubF]
    | cons c cs =>
      cases g with
      | zero => exact absurd hg (by simp)
      | succ g =>
        have hcs : cs.length ≤ f := by simpa using hf
        have hcs' : cs.length ≤ g := by simpa using hg
        simp only [updateSubF]
        cases hpre : spanOpen.isPrefixOf (c :: cs) with
        | true =>
          dsimp only
          cases h2 : splitCloseNoNl ((c :: cs).drop spanOpen.length) with
          | some rest =>
            dsimp only
            have hlen : rest.length ≤ cs.length := by
              have ha := splitCloseNoNl_length h2
              have hb : ((c :: cs).drop spanOpen.length).length ≤ cs.length := by
                have : spanOpen.length ≠ 0 := by decide
                simp only [List.length_drop, List.length_cons]
                omega
              omega
            rw [ih g rest (le_trans hlen hcs) (le_trans hlen hcs')]
          | none => dsimp only; rw [ih g cs hcs hcs']
        | false => dsimp only; rw [ih g cs hcs hcs']

/-! ### Unfolding equations of the two passes, stated without fuel. -/

theorem fixSub_nil : fixSub [] = [] := rfl

theorem fixSub_cons_none {c : Char} {cs : List Char}
    (h : matchDivOpen (c :: cs) = none) : fixSub (c :: cs) = c :: fixSub cs := by
  simp only [fixSub, List.length_cons, fixSubF, h]

theorem fixSub_cons_some {c : Char} {cs rest rest2 : List Char}
    (h1 : matchDivOpen (c :: cs) = some rest)
    (h2 : dropAfter divClose rest = some rest2) :
    fixSub (c :: cs) = canonRegion0 ++ fixSub rest2 := by
  simp only [fixSub, List.length_cons, fixSubF, h1, h2]
  have hlen : rest2.length ≤ cs.length := by
    have ha := matchDivOpen_length h1
    have hb := dropAfter_length h2
    simp only [List.length_cons] at ha
    omega
  rw [fixSubF_fuelEq cs.length rest2.length rest2 hlen le_rfl]

theorem fixSub_cons_noclose {c : Char} {cs rest : List Char}
    (h1 : matchDivOpen (c :: cs) = some rest)
    (h2 : dropAfter divClose rest = none) : fixSub (c :: cs) = c :: fixSub cs := by
  simp only [fixSub, List.length_cons, fixSubF, h1, h2]

theorem updateSub_nil (cnt : List Char) : updateSub cnt [] = [] := rfl

theorem updateSub_cons_no {cnt : List Char} {c : Char} {cs : List Char}
    (h : spanOpen.isPrefixOf (c :: cs) = false) :
    updateSub cnt (c :: cs) = c :: updateSub cnt cs := by
  simp only [updateSub, List.length_cons, updateSubF, h]

theorem updateSub_cons_some {cnt : List Char} {c : Char} {cs rest : List Char}
    (hpre : spanOpen.isPrefixOf (c :: cs) = true)
    (h2 : splitCloseNoNl ((c :: cs).drop spanOpen.length) = some rest) :
    updateSub cnt (c :: cs) = spanOpen ++ cnt ++ spanClose ++ updateSub cnt rest := by
  simp only [updateSub, List.length_cons, updateSubF, hpre, h2]
  have hlen : rest.length ≤ cs.length := by
    have ha := splitCloseNoNl_length h2
    have hb : ((c :: cs).drop spanOpen.length).length ≤ cs.length := by
      have : spanOpen.length ≠ 0 := by decide
      simp only [List.length_drop, List.length_cons]
      omega
    omega
  rw [updateSubF_fuelEq cnt cs.length rest.length rest hlen le_rfl]

theorem updateSub_cons_noclose {cnt : List Char} {c : Char} {cs : List Char}
    (hpre : spanOpen.isPrefixOf (c :: cs) = true)
    (h2 : splitCloseNoNl ((c :: cs).drop spanOpen.length) = none) :
    updateSub cnt (c :: cs) = c :: updateSub cnt cs := by
  simp only [updateSub, List.length_cons, updateSubF, hpre, h2]

/-! ### Clean text: no occurrence of a pattern, and no straddling fragment.

`cleanFor pat l` guarantees that in any concatenation `l ++ r` no occurrence of
`pat` starts inside `l`, whatever `r` is: `pat` occurs at no position of `l`,
and no non-empty suffix of `l` is a prefix of `pat`. -/

def cleanFor (pat : List Char) : List Char → Bool
  | [] => true
  | c :: cs => !pat.isPrefixOf (c :: cs) && !(c :: cs).isPrefixOf pat && cleanFor pat cs

theorem cleanFor_cons_eq (pat : List Char) (c : Char) (cs : List Char) :
    cleanFor pat (c :: cs) =
      (!pat.isPrefixOf (c :: cs) && !(c :: cs).isPrefixOf pat && cleanFor pat cs) := rfl

theorem cleanFor_cons {pat : List Char} {c : Char} {cs : List Char}
    (h : cleanFor pat (c :: cs) = true) :
    pat.isPrefixOf (c :: cs) = false ∧ (c :: cs).isPrefixOf pat = false ∧
      cleanFor pat cs = true := by
  rw [cleanFor_cons_eq] at h
  simp only [Bool.and_eq_true, Bool.not_eq_true'] at h
  exact ⟨h.1.1, h.1.2, h.2⟩

theorem cleanFor_head_not_prefix {pat : List Char} {c : Char} {cs : List Char}
    (h : cleanFor pat (c :: cs) = true) (r : List Char) :
    pat.isPrefixOf (c :: cs ++ r) = false := by
  obtain ⟨h1, h2, _⟩ := cleanFor_cons h
  by_contra hne
  have hpre : pat <+: (c :: cs) ++ r :=
    List.isPrefixOf_iff_prefix.mp (by simpa using Bool.of_not_eq_false hne)
  have hor := List.prefix_or_prefix_of_prefix hpre (List.prefix_append (c :: cs) r)
  cases hor with
  | inl hp =>
    rw [List.isPrefixOf_iff_prefix.mpr hp] at h1
    cases h1
  | inr hp =>
    rw [List.isPrefixOf_iff_prefix.mpr hp] at h2
    cases h2

theorem cleanFor_append {pat a b : List Char}
    (ha : cleanFor pat a = true) (hb : cleanFor pat b = true) :
    cleanFor pat (a ++ b) = true := by
  induction a with
  | nil => simpa using hb
  | cons c cs ih =>
    obtain ⟨h1, h2, h3⟩ := cleanFor_cons ha
    have hnp : pat.isPrefixOf (c :: (cs ++ b)) = false := by
      simpa using cleanFor_head_not_prefix ha b
    have hnp2 : (c :: (cs ++ b)).isPrefixOf pat = false := by
      by_contra hne
      have hp : (c :: (cs ++ b)) <+: pat :=
        List.isPrefixOf_iff_prefix.mp (Bool.of_not_eq_false hne)
      have hp0 : (c :: cs) <+: (c :: cs) ++ b := List.prefix_append (c :: cs) b
      rw [List.cons_append] at hp0
      have hp2 : (c :: cs) <+: pat := List.IsPrefix.trans hp0 hp
      rw [List.isPrefixOf_iff_prefix.mpr hp2] at h2
      cases h2
    rw [List.cons_append, cleanFor_cons_eq, hnp, hnp2]
    simp only [Bool.not_false, Bool.true_and]
    exact ih h3

/-- Text with no `<` and no newline: safe interior text for count values and
for the inner text of a marker region. -/
def okText (l : List Char) : Bool := l.all fun c => !(c == '<') && !(c == '\n')

theorem okText_cons {c : Char} {cs : List Char} (h : okText (c :: cs) = true) :
    c ≠ '<' ∧ c ≠ '\n' ∧ okText cs = true := by
  simp only [okText, List.all_cons, Bool.and_eq_true, Bool.not_eq_true'] at h
  exact ⟨beq_eq_false_iff_ne.mp h.1.1, beq_eq_false_iff_ne.mp h.1.2, h.2⟩

theorem cleanFor_of_okText {ps l : List Char} (h : okText l = true) :
    cleanFor ('<' :: ps) l = true := by
  induction l with
  | nil => rfl
  | cons c cs ih =>
    obtain ⟨hc, _, hcs⟩ := okText_cons h
    have e1 : ('<' :: ps).isPrefixOf (c :: cs) = false := by
      by_contra hne
      have hp := List.isPrefixOf_iff_prefix.mp (Bool.of_not_eq_false hne)
      rw [List.cons_prefix_cons] at hp
      exact hc hp.1.symm
    have e2 : (c :: cs).isPrefixOf ('<' :: ps) = false := by
      by_contra hne
      have hp := List.isPrefixOf_iff_prefix.mp (Bool.of_not_eq_false hne)
      rw [List.cons_prefix_cons] at hp
      exact hc hp.1
    rw [cleanFor_cons_eq, e1, e2]
    simp only [Bool.not_false, Bool.true_and]
    exact ih hcs

/-! ### Unfolding equations of the simple scanners. -/

theorem dropAfter_cons (pat : List Char) (c : Char) (cs : List Char) :
    dropAfter pat (c :: cs) =
      if pat.isPrefixOf (c :: cs) then some ((c :: cs).drop pat.length)
      else dropAfter pat cs := rfl

theorem splitCloseNoNl_cons (c : Char) (cs : List Char) :
    splitCloseNoNl (c :: cs) =
      if spanClose.isPrefixOf (c :: cs) then some ((c :: cs).drop spanClose.length)
      else if c = '\n' then none else splitCloseNoNl cs := rfl

theorem containsSubstr_cons (pat : List Char) (c : Char) (cs : List Char) :
    containsSubstr pat (c :: cs) =
      (pat.isPrefixOf (c :: cs) || containsSubstr pat cs) := rfl

theorem replaceOnce_cons (pat repl : List Char) (c : Char) (cs : List Char) :
    replaceOnce pat repl (c :: cs) =
      if pat.isPrefixOf (c :: cs) then repl ++ (c :: cs).drop pat.length
      else c :: replaceOnce pat repl cs := rfl

theorem countOccur_cons (pat : List Char) (c : Char) (cs : List Char) :
    countOccur pat (c :: cs) =
      (if pat.isPrefixOf (c :: cs) then 1 else 0) + countOccur pat cs := rfl

/-! ### Pass-over lemmas: every scanner walks through clean text untouched. -/

theorem matchDivOpen_eq_none {s : List Char} (h : divOpenTag.isPrefixOf s = false) :
    matchDivOpen s = none := by
  unfold matchDivOpen
  rw [h]
  simp

theorem fixSub_passover {l : List Char} (r : List Char)
    (h : cleanFor divOpenTag l = true) : fixSub (l ++ r) = l ++ fixSub r := by
  induction l with
  | nil => rfl
  | cons c cs ih =>
    have hnone : matchDivOpen (c :: (cs ++ r)) = none :=
      matchDivOpen_eq_none (by simpa using cleanFor_head_not_prefix h r)
    have := fixSub_cons_none hnone
    simp only [List.cons_append, this]
    rw [ih (cleanFor_cons h).2.2]

theorem updateSub_passover {cnt : List Char} {l : List Char} (r : List Char)
    (h : cleanFor spanOpen l = true) : updateSub cnt (l ++ r) = l ++ updateSub cnt r := by
  induction l with
  | nil => rfl
  | cons c cs ih =>
    have hno : spanOpen.isPrefixOf (c :: (cs ++ r)) = false := by
      simpa using cleanFor_head_not_prefix h r
    have hstep : updateSub cnt (c :: (cs ++ r)) = c :: updateSub cnt (cs ++ r) :=
      updateSub_cons_no hno
    simp only [List.cons_append, hstep]
    rw [ih (cleanFor_cons h).2.2]

theorem dropAfter_passover {pat l : List Char} (r : List Char)
    (h : cleanFor pat l = true) : dropAfter pat (l ++ r) = dropAfter pat r := by
  induction l with
  | nil => rfl
  | cons c cs ih =>
    have hno : pat.isPrefixOf (c :: (cs ++ r)) = false := by
      simpa using cleanFor_head_not_prefix h r
    rw [List.cons_append, dropAfter_cons, hno, if_neg Bool.false_ne_true]
    exact ih (cleanFor_cons h).2.2

theorem splitCloseNoNl_passover {l : List Char} (r : List Char)
    (h : okText l = true) : splitCloseNoNl (l ++ r) = splitCloseNoNl r := by
  induction l with
  | nil => rfl
  | cons c cs ih =>
    have hcl : cleanFor spanClose (c :: cs) = true := cleanFor_of_okText h
    have hno : spanClose.isPrefixOf (c :: (cs ++ r)) = false := by
      simpa using cleanFor_head_not_prefix hcl r
    obtain ⟨_, hnl, hcs⟩ := okText_cons h
    rw [List.cons_append, splitCloseNoNl_cons, hno, if_neg Bool.false_ne_true, if_neg hnl]
    exact ih hcs

theorem containsSubstr_passover {pat l : List Char} (r : List Char)
    (h : cleanFor pat l = true) : containsSubstr pat (l ++ r) = containsSubstr pat r := by
  induction l with
  | nil => rfl
  | cons c cs ih =>
    have hno : pat.isPrefixOf (c :: (cs ++ r)) = false := by
      simpa using cleanFor_head_not_prefix h r
    rw [List.cons_append, containsSubstr_cons, hno]
    simp only [Bool.false_or]
    exact ih (cleanFor_cons h).2.2

theorem replaceOnce_passover {pat l : List Char} (repl r : List Char)
    (h : cleanFor pat l = true) :
    replaceOnce pat repl (l ++ r) = l ++ replaceOnce pat repl r := by
  induction l with
  | nil => rfl
  | cons c cs ih =>
    have hno : pat.isPrefixOf (c :: (cs ++ r)) = false := by
      simpa using cleanFor_head_not_prefix h r
    rw [List.cons_append, replaceOnce_cons, hno, if_neg Bool.false_ne_true,
      ih (cleanFor_cons h).2.2, List.cons_append]

theorem countOccur_passover {pat l : List Char} (r : List Char)
    (h : cleanFor pat l = true) : countOccur pat (l ++ r) = countOccur pat r := by
  induction l with
  | nil => rfl
  | cons c cs ih =>
    have hno : pat.isPrefixOf (c :: (cs ++ r)) = false := by
      simpa using cleanFor_head_not_prefix h r
    rw [List.cons_append, countOccur_cons, hno, if_neg Bool.false_ne_true,
      ih (cleanFor_cons h).2.2, Nat.zero_add]

/-! ### Clean text is left unchanged (pass-over with empty remainder). -/

theorem fixSub_cleanId {l : List Char} (h : cleanFor divOpenTag l = true) :
    fixSub l = l := by
  have h2 := fixSub_passover [] h
  rw [List.append_nil, fixSub_nil, List.append_nil] at h2
  exact h2

theorem updateSub_cleanId {cnt l : List Char} (h : cleanFor spanOpen l = true) :
    updateSub cnt l = l := by
  have h2 : updateSub cnt (l ++ []) = l ++ updateSub cnt [] := updateSub_passover [] h
  rw [List.append_nil, updateSub_nil, List.append_nil] at h2
  exact h2

theorem containsSubstr_cleanFalse {pat l : List Char} (hpat : pat ≠ [])
    (h : cleanFor pat l = true) : containsSubstr pat l = false := by
  have h2 := containsSubstr_passover [] h
  rw [List.append_nil] at h2
  rw [h2]
  cases pat with
  | nil => exact absurd rfl hpat
  | cons p ps => rfl

theorem countOccur_cleanZero {pat l : List Char} (h : cleanFor pat l = true) :
    countOccur pat l = 0 := by
  have h2 := countOccur_passover [] h
  rw [List.append_nil] at h2
  rw [h2]
  rfl

/-! ### Head-match lemmas. -/

theorem dropAfter_self {pat : List Char} (hpat : pat ≠ []) (r : List Char) :
    dropAfter pat (pat ++ r) = some r := by
  cases pat with
  | nil => exact absurd rfl hpat
  | cons p ps =>
    have hpre : (p :: ps).isPrefixOf ((p :: ps) ++ r) = true :=
      List.isPrefixOf_iff_prefix.mpr (List.prefix_append (p :: ps) r)
    rw [List.cons_append] at hpre
    rw [List.cons_append, dropAfter_cons, hpre, if_pos rfl, ← List.cons_append,
      List.drop_left]

theorem splitCloseNoNl_self (r : List Char) :
    splitCloseNoNl (spanClose ++ r) = some r := by
  have hpre : spanClose.isPrefixOf (spanClose ++ r) = true :=
    List.isPrefixOf_iff_prefix.mpr (List.prefix_append spanClose r)
  have hsc : spanClose = '<' :: "/span>".data := by decide
  nth_rewrite 2 [hsc] at hpre
  rw [List.cons_append] at hpre
  rw [hsc, List.cons_append, splitCloseNoNl_cons, hpre, if_pos rfl, ← List.cons_append,
    ← hsc, List.drop_left]

theorem replaceOnce_self {pat : List Char} (hpat : pat ≠ []) (repl r : List Char) :
    replaceOnce pat repl (pat ++ r) = repl ++ r := by
  cases pat with
  | nil => exact absurd rfl hpat
  | cons p ps =>
    have hpre : (p :: ps).isPrefixOf ((p :: ps) ++ r) = true :=
      List.isPrefixOf_iff_prefix.mpr (List.prefix_append (p :: ps) r)
    rw [List.cons_append] at hpre
    rw [List.cons_append, replaceOnce_cons, hpre, if_pos rfl, ← List.cons_append,
      List.drop_left]

theorem containsSubstr_self {pat : List Char} (hpat : pat ≠ []) (r : List Char) :
    containsSubstr pat (pat ++ r) = true := by
  cases pat with
  | nil => exact absurd rfl hpat
  | cons p ps =>
    have hpre : (p :: ps).isPrefixOf ((p :: ps) ++ r) = true :=
      List.isPrefixOf_iff_prefix.mpr (List.prefix_append (p :: ps) r)
    rw [List.cons_append] at hpre
    rw [List.cons_append, containsSubstr_cons, hpre]
    rfl

/-! ### The document patcher and the orchestration model. -/

/-- The conditional insertion step: when no `<span id="citation_count">` is in
the text, replace the first `</body>` by the canonical `0` region followed by
`</body>` (`fixed_html.replace('</body>', ..., 1)`). -/
def insertIfMissing (s : List Char) : List Char :=
  if containsSubstr spanOpen s then s
  else replaceOnce bodyClose (canonRegion0 ++ bodyClose) s

/-- The pure text transformation performed by `fix_and_update_citation_matrix`
on the file content: repair pass, conditional insertion of the canonical region
before the first `</body>`, count-update pass.  The second component is the
`changed` outcome: whether the result differs from the original text. -/
def patchText (cnt html : List Char) : List Char × Bool :=
  (updateSub cnt (insertIfMissing (fixSub html)),
   decide (updateSub cnt (insertIfMissing (fixSub html)) ≠ html))

/-! ### How the scanners treat a canonical region. -/

/-- The text `Citations: <span id="citation_count">` between the container
opening and the inner text of a canonical region. -/
def midText : List Char := "Citations: <span id=\"citation_count\">".data

/-- The text `<div id="citation-matrix">Citations: ` before the span opening of
a canonical region. -/
def preDiv : List Char := "<div id=\"citation-matrix\">Citations: ".data

theorem divOpenCanon_decomp : divOpenCanon = divOpenTag ++ (' ' :: idAttr) := by decide

theorem canonPre_decompA : canonPre = divOpenCanon ++ midText := by decide

theorem canonPre_decompB : canonPre = preDiv ++ spanOpen := by decide

theorem canonRegion0_eq : canonRegion0 = canonRegion ['0'] := rfl

theorem matchDivOpen_canon (r : List Char) :
    matchDivOpen (divOpenCanon ++ r) = some r := by
  unfold matchDivOpen
  have h1 : divOpenTag.isPrefixOf (divOpenCanon ++ r) = true := by
    rw [divOpenCanon_decomp, List.append_assoc]
    exact List.isPrefixOf_iff_prefix.mpr (List.prefix_append _ _)
  rw [h1, if_pos rfl]
  have h2 : (divOpenCanon ++ r).drop divOpenTag.length = ' ' :: (idAttr ++ r) := by
    rw [divOpenCanon_decomp, List.append_assoc, List.drop_left, List.cons_append]
  rw [h2]
  have h3 : dropSpaces1 (' ' :: (idAttr ++ r)) = some (dropSpaces0 (idAttr ++ r)) := by
    simp [dropSpaces1, isPySpace]
  rw [h3]
  have h4 : dropSpaces0 (idAttr ++ r) = idAttr ++ r := by
    have hia : idAttr = 'i' :: "d=\"citation-matrix\">".data := by decide
    rw [hia, List.cons_append]
    simp [dropSpaces0, isPySpace]
  rw [h4, Option.some_bind]
  have h5 : idAttr.isPrefixOf (idAttr ++ r) = true :=
    List.isPrefixOf_iff_prefix.mpr (List.prefix_append _ _)
  rw [h5, if_pos rfl, List.drop_left]

theorem fixSub_match {s rest rest2 : List Char}
    (h1 : matchDivOpen s = some rest) (h2 : dropAfter divClose rest = some rest2) :
    fixSub s = canonRegion0 ++ fixSub rest2 := by
  cases s with
  | nil =>
    rw [show matchDivOpen [] = none from by decide] at h1
    cases h1
  | cons c cs => exact fixSub_cons_some h1 h2

theorem updateSub_match {cnt s rest : List Char}
    (hpre : spanOpen.isPrefixOf s = true)
    (h2 : splitCloseNoNl (s.drop spanOpen.length) = some rest) :
    updateSub cnt s = spanOpen ++ cnt ++ spanClose ++ updateSub cnt rest := by
  cases s with
  | nil =>
    rw [show spanOpen.isPrefixOf ([] : List Char) = false from by decide] at hpre
    cases hpre
  | cons c cs => exact updateSub_cons_some hpre h2

theorem cleanFor_okText_head {pat l : List Char} (hpat : pat.head? = some '<')
    (h : okText l = true) : cleanFor pat l = true := by
  cases pat with
  | nil => cases hpat
  | cons p ps =>
    have hp : p = '<' := by simpa using hpat
    subst hp
    exact cleanFor_of_okText h

/-- The repair pass rewrites a canonical region (with `<`-free, newline-free
inner text) to the canonical `0` region and continues after it. -/
theorem fixSub_canonRegion {x : List Char} (r : List Char) (hx : okText x = true) :
    fixSub (canonRegion x ++ r) = canonRegion0 ++ fixSub r := by
  have hm : matchDivOpen (canonRegion x ++ r)
      = some (midText ++ (x ++ (spanClose ++ (divClose ++ r)))) := by
    have he : canonRegion x ++ r
        = divOpenCanon ++ (midText ++ (x ++ (spanClose ++ (divClose ++ r)))) := by
      rw [canonRegion, canonPre_decompA]
      simp [List.append_assoc]
    rw [he, matchDivOpen_canon]
  have hd : dropAfter divClose (midText ++ (x ++ (spanClose ++ (divClose ++ r))))
      = some r := by
    rw [dropAfter_passover _ (by decide : cleanFor divClose midText = true),
      dropAfter_passover _ (cleanFor_okText_head (by decide) hx),
      dropAfter_passover _ (by decide : cleanFor divClose spanClose = true),
      dropAfter_self (by decide) r]
  exact fixSub_match hm hd

/-- The count-update pass rewrites the span of a canonical region to hold the
count and continues after the region. -/
theorem updateSub_canonRegion {x : List Char} (cnt r : List Char)
    (hx : okText x = true) :
    updateSub cnt (canonRegion x ++ r) = canonRegion cnt ++ updateSub cnt r := by
  have he : canonRegion x ++ r
      = preDiv ++ (spanOpen ++ (x ++ (spanClose ++ (divClose ++ r)))) := by
    rw [canonRegion, canonPre_decompB]
    simp [List.append_assoc]
  rw [he, updateSub_passover _ (by decide : cleanFor spanOpen preDiv = true)]
  have hpre : spanOpen.isPrefixOf (spanOpen ++ (x ++ (spanClose ++ (divClose ++ r))))
      = true := List.isPrefixOf_iff_prefix.mpr (List.prefix_append _ _)
  have hsplit : splitCloseNoNl
      ((spanOpen ++ (x ++ (spanClose ++ (divClose ++ r)))).drop spanOpen.length)
      = some (divClose ++ r) := by
    rw [List.drop_left, splitCloseNoNl_passover _ hx, splitCloseNoNl_self]
  rw [updateSub_match hpre hsplit,
    updateSub_passover _ (by decide : cleanFor spanOpen divClose = true)]
  rw [canonRegion, canonPre_decompB]
  simp [List.append_assoc]

/-- A canonical region contains the span opening. -/
theorem containsSubstr_canonRegion (x r : List Char) :
    containsSubstr spanOpen (canonRegion x ++ r) = true := by
  have he : canonRegion x ++ r
      = preDiv ++ (spanOpen ++ (x ++ (spanClose ++ (divClose ++ r)))) := by
    rw [canonRegion, canonPre_decompB]
    simp [List.append_assoc]
  rw [he, containsSubstr_passover _ (by decide : cleanFor spanOpen preDiv = true)]
  exact containsSubstr_self (by decide) _

/-- Counting container openings: a canonical region contributes exactly one. -/
theorem countOccur_canonRegion {x : List Char} (r : List Char)
    (hx : okText x = true) :
    countOccur divOpenCanon (canonRegion x ++ r) = 1 + countOccur divOpenCanon r := by
  have hopen : divOpenCanon = '<' :: "div id=\"citation-matrix\">".data := by decide
  have he : canonRegion x ++ r
      = '<' :: ("div id=\"citation-matrix\">".data
          ++ (midText ++ (x ++ (spanClose ++ (divClose ++ r))))) := by
    rw [canonRegion, canonPre_decompA, hopen]
    simp [List.append_assoc]
  rw [he, countOccur_cons]
  have hpre : divOpenCanon.isPrefixOf ('<' :: ("div id=\"citation-matrix\">".data
      ++ (midText ++ (x ++ (spanClose ++ (divClose ++ r)))))) = true := by
    rw [← List.cons_append, ← hopen]
    exact List.isPrefixOf_iff_prefix.mpr (List.prefix_append _ _)
  rw [hpre, if_pos rfl,
    countOccur_passover _ (by decide : cleanFor divOpenCanon
      ("div id=\"citation-matrix\">".data) = true),
    countOccur_passover _ (by decide : cleanFor divOpenCanon midText = true),
    countOccur_passover _ (cleanFor_okText_head (by decide) hx),
    countOccur_passover _ (by decide : cleanFor divOpenCanon spanClose = true),
    countOccur_passover _ (by decide : cleanFor divOpenCanon divClose = true)]

/-! ### Central lemmas: the patcher on well-formed documents. -/

/-- A clean document segment: it contains no occurrence or boundary fragment of
the container-opening literal `<div` nor of the span opening
`<span id="citation_count">`. -/
def okSeg (l : List Char) : Bool := cleanFor divOpenTag l && cleanFor spanOpen l

theorem okSeg_spec {l : List Char} (h : okSeg l = true) :
    cleanFor divOpenTag l = true ∧ cleanFor spanOpen l = true := by
  simpa [okSeg, Bool.and_eq_true] using h

theorem okSeg_append {a b : List Char} (ha : okSeg a = true) (hb : okSeg b = true) :
    okSeg (a ++ b) = true := by
  obtain ⟨ha1, ha2⟩ := okSeg_spec ha
  obtain ⟨hb1, hb2⟩ := okSeg_spec hb
  simp only [okSeg, Bool.and_eq_true]
  exact ⟨cleanFor_append ha1 hb1, cleanFor_append ha2 hb2⟩

/-- Patching a document made of a single canonical region surrounded by clean
segments: the region is renormalized and receives the count, everything else is
untouched. -/
theorem patchText_canonical (cnt : List Char) {x P S : List Char}
    (hP : okSeg P = true) (hx : okText x = true) (hS : okSeg S = true) :
    patchText cnt (P ++ (canonRegion x ++ S)) =
      (P ++ (canonRegion cnt ++ S),
       decide (P ++ (canonRegion cnt ++ S) ≠ P ++ (canonRegion x ++ S))) := by
  obtain ⟨hP1, hP2⟩ := okSeg_spec hP
  obtain ⟨hS1, hS2⟩ := okSeg_spec hS
  have hfix : fixSub (P ++ (canonRegion x ++ S)) = P ++ (canonRegion0 ++ S) := by
    rw [fixSub_passover _ hP1, fixSub_canonRegion _ hx, fixSub_cleanId hS1]
  have hins : insertIfMissing (P ++ (canonRegion0 ++ S)) = P ++ (canonRegion0 ++ S) := by
    unfold insertIfMissing
    rw [containsSubstr_passover _ hP2, canonRegion0_eq, containsSubstr_canonRegion,
      if_pos rfl]
  have hupd : updateSub cnt (P ++ (canonRegion0 ++ S)) = P ++ (canonRegion cnt ++ S) := by
    rw [updateSub_passover _ hP2, canonRegion0_eq,
      updateSub_canonRegion cnt S (by decide), updateSub_cleanId hS2]
  unfold patchText
  rw [hfix, hins, hupd]

/-- Patching a document with no span and no container but a `</body>` tag: the
canonical region holding the count is inserted before the first `</body>`, and
the document is reported changed. -/
theorem patchText_insert (cnt : List Char) {P S : List Char}
    (hP : okSeg P = true) (hPb : cleanFor bodyClose P = true) (hS : okSeg S = true) :
    patchText cnt (P ++ (bodyClose ++ S)) =
      (P ++ (canonRegion cnt ++ (bodyClose ++ S)), true) := by
  obtain ⟨hP1, hP2⟩ := okSeg_spec hP
  obtain ⟨hS1, hS2⟩ := okSeg_spec hS
  have hfix : fixSub (P ++ (bodyClose ++ S)) = P ++ (bodyClose ++ S) := by
    rw [fixSub_passover _ hP1,
      fixSub_passover _ (by decide : cleanFor divOpenTag bodyClose = true),
      fixSub_cleanId hS1]
  have hnospan : containsSubstr spanOpen (P ++ (bodyClose ++ S)) = false := by
    rw [containsSubstr_passover _ hP2,
      containsSubstr_passover _ (by decide : cleanFor spanOpen bodyClose = true),
      containsSubstr_cleanFalse (by decide) hS2]
  have hins : insertIfMissing (P ++ (bodyClose ++ S))
      = P ++ (canonRegion0 ++ (bodyClose ++ S)) := by
    unfold insertIfMissing
    rw [hnospan, if_neg Bool.false_ne_true, replaceOnce_passover _ _ hPb,
      replaceOnce_self (by decide) _ S, List.append_assoc]
  have hupd : updateSub cnt (P ++ (canonRegion0 ++ (bodyClose ++ S)))
      = P ++ (canonRegion cnt ++ (bodyClose ++ S)) := by
    rw [updateSub_passover _ hP2, canonRegion0_eq,
      updateSub_canonRegion cnt (bodyClose ++ S) (by decide),
      updateSub_passover _ (by decide : cleanFor spanOpen bodyClose = true),
      updateSub_cleanId hS2]
  have hne : P ++ (canonRegion cnt ++ (bodyClose ++ S)) ≠ P ++ (bodyClose ++ S) := by
    intro he
    have hl := congrArg List.length he
    have hcp : 0 < canonPre.length := by decide
    simp only [List.length_append, canonRegion] at hl
    omega
  unfold patchText
  rw [hfix, hins, hupd]
  exact congrArg _ (decide_eq_true hne)

/-- Patching a document holding two container regions surrounded by clean
segments: both regions are renormalized and both receive the count. -/
theorem patchText_twoRegions (cnt : List Char) {x y P Q R : List Char}
    (hP : okSeg P = true) (hx : okText x = true) (hQ : okSeg Q = true)
    (hy : okText y = true) (hR : okSeg R = true) :
    patchText cnt (P ++ (canonRegion x ++ (Q ++ (canonRegion y ++ R)))) =
      (P ++ (canonRegion cnt ++ (Q ++ (canonRegion cnt ++ R))),
       decide (P ++ (canonRegion cnt ++ (Q ++ (canonRegion cnt ++ R)))
         ≠ P ++ (canonRegion x ++ (Q ++ (canonRegion y ++ R))))) := by
  obtain ⟨hP1, hP2⟩ := okSeg_spec hP
  obtain ⟨hQ1, hQ2⟩ := okSeg_spec hQ
  obtain ⟨hR1, hR2⟩ := okSeg_spec hR
  have hfix : fixSub (P ++ (canonRegion x ++ (Q ++ (canonRegion y ++ R))))
      = P ++ (canonRegion0 ++ (Q ++ (canonRegion0 ++ R))) := by
    rw [fixSub_passover _ hP1, fixSub_canonRegion _ hx, fixSub_passover _ hQ1,
      fixSub_canonRegion _ hy, fixSub_cleanId hR1]
  have hins : insertIfMissing (P ++ (canonRegion0 ++ (Q ++ (canonRegion0 ++ R))))
      = P ++ (canonRegion0 ++ (Q ++ (canonRegion0 ++ R))) := by
    unfold insertIfMissing
    rw [containsSubstr_passover _ hP2, canonRegion0_eq, containsSubstr_canonRegion,
      if_pos rfl]
  have hupd : updateSub cnt (P ++ (canonRegion0 ++ (Q ++ (canonRegion0 ++ R))))
      = P ++ (canonRegion cnt ++ (Q ++ (canonRegion cnt ++ R))) := by
    rw [updateSub_passover _ hP2, canonRegion0_eq,
      updateSub_canonRegion cnt _ (by decide), updateSub_passover _ hQ2,
      updateSub_canonRegion cnt _ (by decide), updateSub_cleanId hR2]
  unfold patchText
  rw [hfix, hins, hupd]

/-- A span element `<span id="citation_count">` y `</span>` with inner text `y`,
possibly outside any container region. -/
def spanRegion (y : List Char) : List Char := spanOpen ++ y ++ spanClose

theorem cleanFor_divOpenTag_spanRegion {y : List Char} (hy : okText y = true) :
    cleanFor divOpenTag (spanRegion y) = true := by
  unfold spanRegion
  exact cleanFor_append (cleanFor_append (by decide) (cleanFor_okText_head (by decide) hy))
    (by decide)

/-- The count-update pass rewrites a bare span region and continues after it. -/
theorem updateSub_spanRegion (cnt : List Char) {y : List Char} (r : List Char)
    (hy : okText y = true) :
    updateSub cnt (spanRegion y ++ r) = spanRegion cnt ++ updateSub cnt r := by
  have he : spanRegion y ++ r = spanOpen ++ (y ++ (spanClose ++ r)) := by
    simp [spanRegion, List.append_assoc]
  rw [he]
  have hpre : spanOpen.isPrefixOf (spanOpen ++ (y ++ (spanClose ++ r))) = true :=
    List.isPrefixOf_iff_prefix.mpr (List.prefix_append _ _)
  have hsplit : splitCloseNoNl ((spanOpen ++ (y ++ (spanClose ++ r))).drop spanOpen.length)
      = some r := by
    rw [List.drop_left, splitCloseNoNl_passover _ hy, splitCloseNoNl_self]
  rw [updateSub_match hpre hsplit]
  simp [spanRegion, List.append_assoc]

/-- Patching a document holding two bare span elements (no container anywhere):
both spans receive the count. -/
theorem patchText_twoSpans (cnt : List Char) {a b P Q R : List Char}
    (hP : okSeg P = true) (ha : okText a = true) (hQ : okSeg Q = true)
    (hb : okText b = true) (hR : okSeg R = true) :
    (patchText cnt (P ++ (spanRegion a ++ (Q ++ (spanRegion b ++ R))))).1 =
      P ++ (spanRegion cnt ++ (Q ++ (spanRegion cnt ++ R))) := by
  obtain ⟨hP1, hP2⟩ := okSeg_spec hP
  obtain ⟨hQ1, hQ2⟩ := okSeg_spec hQ
  obtain ⟨hR1, hR2⟩ := okSeg_spec hR
  have hfix : fixSub (P ++ (spanRegion a ++ (Q ++ (spanRegion b ++ R))))
      = P ++ (spanRegion a ++ (Q ++ (spanRegion b ++ R))) := by
    refine fixSub_cleanId ?_
    exact cleanFor_append hP1 (cleanFor_append (cleanFor_divOpenTag_spanRegion ha)
      (cleanFor_append hQ1 (cleanFor_append (cleanFor_divOpenTag_spanRegion hb) hR1)))
  have hspan : containsSubstr spanOpen (P ++ (spanRegion a ++ (Q ++ (spanRegion b ++ R))))
      = true := by
    rw [containsSubstr_passover _ hP2]
    have he : spanRegion a ++ (Q ++ (spanRegion b ++ R))
        = spanOpen ++ (a ++ (spanClose ++ (Q ++ (spanRegion b ++ R)))) := by
      simp [spanRegion, List.append_assoc]
    rw [he]
    exact containsSubstr_self (by decide) _
  have hins : insertIfMissing (P ++ (spanRegion a ++ (Q ++ (spanRegion b ++ R))))
      = P ++ (spanRegion a ++ (Q ++ (spanRegion b ++ R))) := by
    unfold insertIfMissing
    rw [hspan, if_pos rfl]
  have hupd : updateSub cnt (P ++ (spanRegion a ++ (Q ++ (spanRegion b ++ R))))
      = P ++ (spanRegion cnt ++ (Q ++ (spanRegion cnt ++ R))) := by
    rw [updateSub_passover _ hP2, updateSub_spanRegion cnt _ ha,
      updateSub_passover _ hQ2, updateSub_spanRegion cnt _ hb, updateSub_cleanId hR2]
  unfold patchText
  rw [hfix, hins, hupd]

/-- Cleanliness for a pattern transfers to any extension of that pattern. -/
theorem cleanFor_mono {p q l : List Char} (hpq : p <+: q)
    (h : cleanFor p l = true) : cleanFor q l = true := by
  induction l with
  | nil => rfl
  | cons c cs ih =>
    obtain ⟨h1, h2, h3⟩ := cleanFor_cons h
    have e1 : q.isPrefixOf (c :: cs) = false := by
      by_contra hne
      have hq : q <+: (c :: cs) :=
        List.isPrefixOf_iff_prefix.mp (Bool.of_not_eq_false hne)
      have hp2 : p <+: (c :: cs) := hpq.trans hq
      rw [List.isPrefixOf_iff_prefix.mpr hp2] at h1
      cases h1
    have e2 : (c :: cs).isPrefixOf q = false := by
      by_contra hne
      have ht : (c :: cs) <+: q :=
        List.isPrefixOf_iff_prefix.mp (Bool.of_not_eq_false hne)
      rcases List.prefix_or_prefix_of_prefix ht hpq with hcp | hpc
      · rw [List.isPrefixOf_iff_prefix.mpr hcp] at h2
        cases h2
      · rw [List.isPrefixOf_iff_prefix.mpr hpc] at h1
        cases h1
    rw [cleanFor_cons_eq, e1, e2]
    simp only [Bool.not_false, Bool.true_and]
    exact ih h3

theorem cleanFor_divOpenCanon_of_okSeg {l : List Char} (h : okSeg l = true) :
    cleanFor divOpenCanon l = true :=
  cleanFor_mono (List.isPrefixOf_iff_prefix.mp (by decide)) (okSeg_spec h).1

/-! ### The Citation Source Client (fetchers). -/

/-- A scholarly author record: the optional `citedby` field models whether the
key `'citedby'` is present in the returned dictionary. -/
structure ScholarlyAuthor where
  citedby : Option Nat

/-- `fetch_citation_data_scholarly`.  The input models the outcome of
`search_author_id` plus `next(author_iter, None)`: `none` means the lookup
raised an exception, `some none` means it yielded no author, `some (some a)`
is a found author record.  The result is the `citation_count` entry of the
returned dictionary. -/
def fetch_citation_data_scholarly : Option (Option ScholarlyAuthor) → List Char
  | none => errStr
  | some none => errStr
  | some (some a) =>
    match a.citedby with
    | some n => (Nat.repr n).data
    | none => errStr

/-- An HTTP response of the Semantic Scholar graph endpoint: a status code and
the optional `citationCount` field of the decoded JSON body. -/
structure SemanticResponse where
  status : Nat
  citationCount : Option Nat

/-- `fetch_citation_data_semantic`.  The input `none` models a raised transport
or parsing exception; on status 200 the stringified `citationCount` field is
returned, defaulting to the sentinel when the field is absent
(`str(data.get("citationCount", "Error"))`). -/
def fetch_citation_data_semantic : Option SemanticResponse → List Char
  | none => errStr
  | some resp =>
    if resp.status = 200 then
      match resp.citationCount with
      | some n => (Nat.repr n).data
      | none => errStr
    else errStr

/-! ### The Sync Orchestrator (`fix_and_update_citation_matrix` and `__main__`). -/

/-- The observable outcome of one call of `fix_and_update_citation_matrix`:
the file content afterwards (`none` when the file does not exist), whether the
file was rewritten, whether the file-not-found error message was printed, and
the returned boolean. -/
structure PatchRunResult where
  file : Option (List Char)
  wrote : Bool
  missingReported : Bool
  returned : Bool
deriving DecidableEq

/-- `fix_and_update_citation_matrix(citation_data, file_path)`: returns `False`
after printing an error when the file does not exist; otherwise patches the
text and rewrites the file exactly when the result differs from the original,
returning the comparison outcome. -/
def fix_and_update_citation_matrix (cnt : List Char) :
    Option (List Char) → PatchRunResult
  | none => ⟨none, false, true, false⟩
  | some html =>
    if (patchText cnt html).2 then ⟨some (patchText cnt html).1, true, false, true⟩
    else ⟨some html, false, false, false⟩

/-- The observable outcome of one run of the `__main__` block. -/
structure RunOutcome where
  finalFile : Option (List Char)
  fileWritten : Bool
  missingFileError : Bool
  gitRan : Bool
  exitCode : Nat
deriving DecidableEq

/-- The `__main__` block: fetches a count (here a parameter), calls
`fix_and_update_citation_matrix`, runs the version-control steps (identity
configuration, add, commit, push) exactly when it returned `True`, and ends
normally — the process exit code is 0 on every path. -/
def runScript (cnt : List Char) (file : Option (List Char)) : RunOutcome :=
  let r := fix_and_update_citation_matrix cnt file
  { finalFile := r.file
    fileWritten := r.wrote
    missingFileError := r.missingReported
    gitRan := r.returned
    exitCode := 0 }

/-! ### Concrete documents and counts used in counterexamples and witnesses. -/

set_option maxRecDepth 200000

/-- The count `"42"`. -/
def cnt42 : List Char := "42".data

/-- The count `"7"`. -/
def cnt7 : List Char := "7".data

/-- A document whose container opening has no matching `</div>`. -/
def docUnclosed : List Char := "<div id=\"citation-matrix\">xyz</body>".data

/-- A document with two (stale) container regions and a closing body tag. -/
def docDuplicated : List Char :=
  "<div id=\"citation-matrix\">a</div><div id=\"citation-matrix\">b</div></body>".data

/-- A document with a stale container region, trailing text and a body tag;
its inner span element is absent. -/
def docNoSpan : List Char := "<div id=\"citation-matrix\">x</div>abc</body>".data

/-- A document with two (stale) container regions separated by text. -/
def docTwoRegions : List Char :=
  "<div id=\"citation-matrix\">a</div>x<div id=\"citation-matrix\">b</div>".data

/-- The second stale container region of `docTwoRegions`, as it appears in its
input form. -/
def staleSecondRegion : List Char := "<div id=\"citation-matrix\">b</div>".data

/-- The segment `x`. -/
def xSeg : List Char := "x".data

/-- The prefix `<html><body>` of the end-to-end scenario document. -/
def htmlPre : List Char := "<html><body>".data

/-- The suffix `</html>` of the end-to-end scenario document. -/
def htmlSuf : List Char := "</html>".data

/-- A document with no markup at all. -/
def docPlain : List Char := "x".data

/-! ### The claims. -/

/-- Claim C1, counterexample: for the document
`<div id="citation-matrix">xyz</body>` (a container opening with no matching
`</div>`) and count `"42"`, applying the patch a second time to the
already-patched text reports `changed = true` and produces a different text,
refuting `patch(patch(doc, n).newText, n).changed == false` for every
document. -/
theorem c1_counterexample :
    (patchText cnt42 ((patchText cnt42 docUnclosed).1)).2 = true
    ∧ (patchText cnt42 ((patchText cnt42 docUnclosed).1)).1
        ≠ (patchText cnt42 docUnclosed).1 := by decide

/-- Claim C1 (amended): patching is idempotent on well-formed documents: for
every count with no `<` and no newline, and every document that is clean text
around one canonical container region (clean text around a `</body>` tag with
no container and no span at all), patching the patched text again with the
same count changes nothing and reports `changed = false`. -/
theorem c1_idempotent_on_wellformed (cnt : List Char) {x P S : List Char}
    (hc : okText cnt = true) (hP : okSeg P = true)
    (hPb : cleanFor bodyClose P = true) (hx : okText x = true)
    (hS : okSeg S = true) :
    ((patchText cnt ((patchText cnt (P ++ (canonRegion x ++ S))).1)).1
        = (patchText cnt (P ++ (canonRegion x ++ S))).1
      ∧ (patchText cnt ((patchText cnt (P ++ (canonRegion x ++ S))).1)).2 = false)
    ∧ ((patchText cnt ((patchText cnt (P ++ (bodyClose ++ S))).1)).1
        = (patchText cnt (P ++ (bodyClose ++ S))).1
      ∧ (patchText cnt ((patchText cnt (P ++ (bodyClose ++ S))).1)).2 = false) := by
  have h1a : (patchText cnt (P ++ (canonRegion x ++ S))).1
      = P ++ (canonRegion cnt ++ S) :=
    congrArg Prod.fst (patchText_canonical cnt hP hx hS)
  have h3 := patchText_canonical cnt hP hc hS
  have h3a : (patchText cnt (P ++ (canonRegion cnt ++ S))).1
      = P ++ (canonRegion cnt ++ S) := congrArg Prod.fst h3
  have h3b : (patchText cnt (P ++ (canonRegion cnt ++ S))).2
      = decide (P ++ (canonRegion cnt ++ S) ≠ P ++ (canonRegion cnt ++ S)) :=
    congrArg Prod.snd h3
  have hSb : okSeg (bodyClose ++ S) = true := okSeg_append (by decide) hS
  have h2a : (patchText cnt (P ++ (bodyClose ++ S))).1
      = P ++ (canonRegion cnt ++ (bodyClose ++ S)) :=
    congrArg Prod.fst (patchText_insert cnt hP hPb hS)
  have h4 := patchText_canonical cnt hP hc hSb
  have h4a : (patchText cnt (P ++ (canonRegion cnt ++ (bodyClose ++ S)))).1
      = P ++ (canonRegion cnt ++ (bodyClose ++ S)) := congrArg Prod.fst h4
  have h4b : (patchText cnt (P ++ (canonRegion cnt ++ (bodyClose ++ S)))).2
      = decide (P ++ (canonRegion cnt ++ (bodyClose ++ S))
          ≠ P ++ (canonRegion cnt ++ (bodyClose ++ S))) := congrArg Prod.snd h4
  refine ⟨⟨?_, ?_⟩, ?_, ?_⟩
  · rw [h1a, h3a]
  · rw [h1a, h3b]
    simp
  · rw [h2a, h4a]
  · rw [h2a, h4b]
    simp

/-- Claim C1, witness of the amended statement at the canonical-form document
`<html><body>` ++ region(7) ++ `</html>` and at the insert-form document
`<html><body></body></html>`, with count `"42"`. -/
theorem c1_idempotent_on_wellformed_witness :
    (okText cnt42 = true ∧ okSeg htmlPre = true ∧ okSeg htmlSuf = true)
    ∧ ((patchText cnt42 ((patchText cnt42 (htmlPre ++ (canonRegion cnt7 ++ htmlSuf))).1)).2
        = false)
    ∧ ((patchText cnt42 ((patchText cnt42 (htmlPre ++ (bodyClose ++ htmlSuf))).1)).2
        = false) :=
  ⟨⟨by decide, by decide, by decide⟩,
    (c1_idempotent_on_wellformed cnt42 (by decide) (by decide) (by decide)
      (by decide) (by decide)).1.2,
    (@c1_idempotent_on_wellformed cnt42 cnt7 htmlPre htmlSuf (by decide) (by decide)
      (by decide) (by decide) (by decide)).2.2⟩

/-- Claim C2, counterexample: the document with two stale container regions
`<div id="citation-matrix">a</div><div id="citation-matrix">b</div></body>`
is patched successfully (`changed = true`) but the result holds two canonical
marker regions, not exactly one: the repair pass does not reduce a duplicated
container to one canonical region. -/
theorem c2_counterexample :
    (patchText cnt42 docDuplicated).2 = true
    ∧ countOccur divOpenCanon ((patchText cnt42 docDuplicated).1) = 2 := by decide

/-- Claim C2 (amended): after a successful patch of a document with exactly one
container region surrounded by clean text — or with no container, no span, and
a `</body>` tag — the result holds exactly one well-formed canonical marker
region carrying the count.  (A duplicated container is not reduced: each
occurrence is normalized in place and all of them remain.) -/
theorem c2_exactly_one_region (cnt : List Char) {x P S : List Char}
    (hc : okText cnt = true) (hP : okSeg P = true)
    (hPb : cleanFor bodyClose P = true) (hx : okText x = true)
    (hS : okSeg S = true) :
    ((patchText cnt (P ++ (canonRegion x ++ S))).1 = P ++ (canonRegion cnt ++ S)
      ∧ countOccur divOpenCanon ((patchText cnt (P ++ (canonRegion x ++ S))).1) = 1)
    ∧ ((patchText cnt (P ++ (bodyClose ++ S))).1
          = P ++ (canonRegion cnt ++ (bodyClose ++ S))
      ∧ countOccur divOpenCanon ((patchText cnt (P ++ (bodyClose ++ S))).1) = 1) := by
  have h1a : (patchText cnt (P ++ (canonRegion x ++ S))).1
      = P ++ (canonRegion cnt ++ S) :=
    congrArg Prod.fst (patchText_canonical cnt hP hx hS)
  have h2a : (patchText cnt (P ++ (bodyClose ++ S))).1
      = P ++ (canonRegion cnt ++ (bodyClose ++ S)) :=
    congrArg Prod.fst (patchText_insert cnt hP hPb hS)
  have hPc : cleanFor divOpenCanon P = true := cleanFor_divOpenCanon_of_okSeg hP
  have hSc : cleanFor divOpenCanon S = true := cleanFor_divOpenCanon_of_okSeg hS
  refine ⟨⟨h1a, ?_⟩, h2a, ?_⟩
  · rw [h1a, countOccur_passover _ hPc, countOccur_canonRegion _ hc,
      countOccur_cleanZero hSc]
  · rw [h2a, countOccur_passover _ hPc, countOccur_canonRegion _ hc,
      countOccur_passover _ (by decide : cleanFor divOpenCanon bodyClose = true),
      countOccur_cleanZero hSc]

/-- Claim C2, witness of the amended statement: one stale region between
`<html><body>` and `</html>`, and the region-free document
`<html><body></body></html>`, patched with `"42"`. -/
theorem c2_exactly_one_region_witness :
    (okSeg htmlPre = true ∧ okText cnt7 = true)
    ∧ countOccur divOpenCanon
        ((patchText cnt42 (htmlPre ++ (canonRegion cnt7 ++ htmlSuf))).1) = 1
    ∧ countOccur divOpenCanon
        ((patchText cnt42 (htmlPre ++ (bodyClose ++ htmlSuf))).1) = 1 :=
  ⟨⟨by decide, by decide⟩,
    (c2_exactly_one_region cnt42 (by decide) (by decide) (by decide) (by decide)
      (by decide)).1.2,
    (@c2_exactly_one_region cnt42 cnt7 htmlPre htmlSuf (by decide) (by decide)
      (by decide) (by decide) (by decide)).2.2⟩

/-- Claim C3, counterexample: the document
`<div id="citation-matrix">x</div>abc</body>` has no canonical inner element,
yet patching it with `"42"` performs no insertion before the closing `</body>`
tag: the repair pass recreates the span inside the existing container instead,
so the patched text does not contain the canonical region immediately before
`</body>`. -/
theorem c3_counterexample :
    containsSubstr spanOpen docNoSpan = false
    ∧ (patchText cnt42 docNoSpan).2 = true
    ∧ containsSubstr (canonRegion cnt42 ++ bodyClose)
        ((patchText cnt42 docNoSpan).1) = false := by decide

/-- Claim C3 (amended): for every input document in which the canonical inner
element is still absent after the repair pass (for example the container is
missing entirely) and which contains a closing `</body>` tag, the patch inserts
exactly one complete canonical region — container plus inner element preset to
`0`, then updated to the count — immediately before the document's first
`</body>`; in particular `<html><body></body></html>` with count `"42"` yields
`<html><body><div id="citation-matrix">Citations: <span id="citation_count">42</span></div></body></html>`
with `changed = true`. -/
theorem c3_insert_before_body (cnt : List Char) {P S : List Char}
    (hc : okText cnt = true) (hP : okSeg P = true)
    (hPb : cleanFor bodyClose P = true) (hS : okSeg S = true) :
    containsSubstr spanOpen (fixSub (P ++ (bodyClose ++ S))) = false
    ∧ (patchText cnt (P ++ (bodyClose ++ S))).1
        = P ++ (canonRegion cnt ++ (bodyClose ++ S))
    ∧ (patchText cnt (P ++ (bodyClose ++ S))).2 = true
    ∧ countOccur divOpenCanon ((patchText cnt (P ++ (bodyClose ++ S))).1) = 1 := by
  obtain ⟨hP1, hP2⟩ := okSeg_spec hP
  obtain ⟨hS1, hS2⟩ := okSeg_spec hS
  have hfix : fixSub (P ++ (bodyClose ++ S)) = P ++ (bodyClose ++ S) := by
    rw [fixSub_passover _ hP1,
      fixSub_passover _ (by decide : cleanFor divOpenTag bodyClose = true),
      fixSub_cleanId hS1]
  have hnospan : containsSubstr spanOpen (P ++ (bodyClose ++ S)) = false := by
    rw [containsSubstr_passover _ hP2,
      containsSubstr_passover _ (by decide : cleanFor spanOpen bodyClose = true),
      containsSubstr_cleanFalse (by decide) hS2]
  have h2 := patchText_insert cnt hP hPb hS
  have h2a : (patchText cnt (P ++ (bodyClose ++ S))).1
      = P ++ (canonRegion cnt ++ (bodyClose ++ S)) := congrArg Prod.fst h2
  have h2b : (patchText cnt (P ++ (bodyClose ++ S))).2 = true := congrArg Prod.snd h2
  refine ⟨?_, h2a, h2b, ?_⟩
  · rw [hfix]
    exact hnospan
  · rw [h2a, countOccur_passover _ (cleanFor_divOpenCanon_of_okSeg hP),
      countOccur_canonRegion _ hc,
      countOccur_passover _ (by decide : cleanFor divOpenCanon bodyClose = true),
      countOccur_cleanZero (cleanFor_divOpenCanon_of_okSeg hS)]

/-- Claim C3, witness: the end-to-end scenario.  The document
`<html><body></body></html>` with count `"42"` is patched to
`<html><body>` ++ canonical region(42) ++ `</body></html>` — the canonical
region sits immediately before `</body>` — and `changed = true`. -/
theorem c3_insert_before_body_witness :
    (okSeg htmlPre = true ∧ cleanFor bodyClose htmlPre = true
      ∧ okSeg htmlSuf = true)
    ∧ (patchText cnt42 (htmlPre ++ (bodyClose ++ htmlSuf))).1
        = htmlPre ++ (canonRegion cnt42 ++ (bodyClose ++ htmlSuf))
    ∧ (patchText cnt42 (htmlPre ++ (bodyClose ++ htmlSuf))).2 = true :=
  ⟨⟨by decide, by decide, by decide⟩,
    (c3_insert_before_body cnt42 (by decide) (by decide) (by decide)
      (by decide)).2.1,
    (c3_insert_before_body cnt42 (by decide) (by decide) (by decide)
      (by decide)).2.2.1⟩

/-- Claim C4, counterexample: for the document
`<div id="citation-matrix">a</div>x<div id="citation-matrix">b</div>` with
count `"42"`, the repair pass normalizes both container occurrences — the
second stale region does not survive — refuting that only the first occurrence
is normalized (Python's `re.sub` is global). -/
theorem c4_counterexample :
    (patchText cnt42 docTwoRegions).1
      = canonRegion cnt42 ++ (xSeg ++ canonRegion cnt42)
    ∧ containsSubstr staleSecondRegion ((patchText cnt42 docTwoRegions).1)
        = false := by decide

/-- Claim C4 (amended): every occurrence of the container element is normalized
by the repair pass — the container substitution is global, not limited to the
first occurrence: both regions of a two-region document are rewritten to the
canonical form and receive the count. -/
theorem c4_all_occurrences_normalized (cnt : List Char) {x y P Q R : List Char}
    (hP : okSeg P = true) (hx : okText x = true) (hQ : okSeg Q = true)
    (hy : okText y = true) (hR : okSeg R = true) :
    (patchText cnt (P ++ (canonRegion x ++ (Q ++ (canonRegion y ++ R))))).1
      = P ++ (canonRegion cnt ++ (Q ++ (canonRegion cnt ++ R))) :=
  congrArg Prod.fst (patchText_twoRegions cnt hP hx hQ hy hR)

/-- Claim C4, witness: both stale regions of a concrete two-region document are
normalized and carry `"42"` after the patch. -/
theorem c4_all_occurrences_normalized_witness :
    (okSeg xSeg = true ∧ okText cnt7 = true)
    ∧ (patchText cnt42
        (htmlPre ++ (canonRegion cnt7 ++ (xSeg ++ (canonRegion cnt7 ++ htmlSuf))))).1
      = htmlPre ++ (canonRegion cnt42 ++ (xSeg ++ (canonRegion cnt42 ++ htmlSuf))) :=
  ⟨⟨by decide, by decide⟩,
    c4_all_occurrences_normalized cnt42 (by decide) (by decide) (by decide)
      (by decide) (by decide)⟩

/-- The suffix `</body></html>` used when a document already holds its span. -/
def bodyHtmlSuf : List Char := "</body></html>".data

/-- Claim C5: whenever a Citation Source Client variant reports the unavailable
result (the `"Error"` sentinel), patching a well-formed document with the
reported count sets the inner element's text content to the literal `Error`. -/
theorem c5_sentinel_propagation (a : Option (Option ScholarlyAuthor))
    (b : Option SemanticResponse) {x P S : List Char}
    (ha : fetch_citation_data_scholarly a = errStr)
    (hb : fetch_citation_data_semantic b = errStr)
    (hP : okSeg P = true) (hx : okText x = true) (hS : okSeg S = true) :
    (patchText (fetch_citation_data_scholarly a) (P ++ (canonRegion x ++ S))).1
        = P ++ (canonRegion errStr ++ S)
    ∧ (patchText (fetch_citation_data_semantic b) (P ++ (canonRegion x ++ S))).1
        = P ++ (canonRegion errStr ++ S) := by
  rw [ha, hb]
  exact ⟨congrArg Prod.fst (patchText_canonical errStr hP hx hS),
    congrArg Prod.fst (patchText_canonical errStr hP hx hS)⟩

/-- Claim C5, witness: a failed scholarly lookup and a failed graph-API request
both yield the sentinel, and patching a concrete document with it puts the
literal `Error` into the span. -/
theorem c5_sentinel_propagation_witness :
    fetch_citation_data_scholarly none = errStr
    ∧ (patchText (fetch_citation_data_scholarly none)
          (htmlPre ++ (canonRegion cnt7 ++ htmlSuf))).1
        = htmlPre ++ (canonRegion errStr ++ htmlSuf)
    ∧ (patchText (fetch_citation_data_semantic none)
          (htmlPre ++ (canonRegion cnt7 ++ htmlSuf))).1
        = htmlPre ++ (canonRegion errStr ++ htmlSuf) :=
  ⟨rfl,
    (c5_sentinel_propagation none none rfl rfl (by decide) (by decide) (by decide)).1,
    (c5_sentinel_propagation none none rfl rfl (by decide) (by decide) (by decide)).2⟩

/-- Claim C6: both fetch variants are total functions into count strings — no
input raises — and they return the `"Error"` sentinel on every transport or
parsing failure; on HTTP success the graph-API variant returns the stringified
citation field, defaulting to the sentinel when the field is absent. -/
theorem c6_fetch_error_handling :
    (fetch_citation_data_scholarly none = errStr
      ∧ fetch_citation_data_scholarly (some none) = errStr
      ∧ (∀ a : ScholarlyAuthor, a.citedby = none →
          fetch_citation_data_scholarly (some (some a)) = errStr)
      ∧ (∀ (a : ScholarlyAuthor) (n : Nat), a.citedby = some n →
          fetch_citation_data_scholarly (some (some a)) = (Nat.repr n).data))
    ∧ (fetch_citation_data_semantic none = errStr
      ∧ (∀ r : SemanticResponse, r.status ≠ 200 →
          fetch_citation_data_semantic (some r) = errStr)
      ∧ (∀ r : SemanticResponse, r.status = 200 → r.citationCount = none →
          fetch_citation_data_semantic (some r) = errStr)
      ∧ (∀ (r : SemanticResponse) (n : Nat),
          r.status = 200 → r.citationCount = some n →
          fetch_citation_data_semantic (some r) = (Nat.repr n).data)) := by
  refine ⟨⟨rfl, rfl, ?_, ?_⟩, rfl, ?_, ?_, ?_⟩
  · intro a h
    simp [fetch_citation_data_scholarly, h]
  · intro a n h
    simp [fetch_citation_data_scholarly, h]
  · intro r h
    simp [fetch_citation_data_semantic, h]
  · intro r h1 h2
    simp [fetch_citation_data_semantic, h1, h2]
  · intro r n h1 h2
    simp [fetch_citation_data_semantic, h1, h2]

/-- Claim C6, witness: concrete failure and success inputs for both variants. -/
theorem c6_fetch_error_handling_witness :
    fetch_citation_data_scholarly (some (some ⟨none⟩)) = errStr
    ∧ fetch_citation_data_scholarly (some (some ⟨some 7⟩)) = (Nat.repr 7).data
    ∧ fetch_citation_data_semantic (some ⟨404, some 7⟩) = errStr
    ∧ fetch_citation_data_semantic (some ⟨200, none⟩) = errStr
    ∧ fetch_citation_data_semantic (some ⟨200, some 7⟩) = (Nat.repr 7).data :=
  ⟨c6_fetch_error_handling.1.2.2.1 ⟨none⟩ rfl,
    c6_fetch_error_handling.1.2.2.2 ⟨some 7⟩ 7 rfl,
    c6_fetch_error_handling.2.2.1 ⟨404, some 7⟩ (by decide),
    c6_fetch_error_handling.2.2.2.1 ⟨200, none⟩ rfl rfl,
    c6_fetch_error_handling.2.2.2.2 ⟨200, some 7⟩ 7 rfl rfl⟩

/-- Claim C7: when the target file does not exist the run reports the
file-not-found error and stops: `fix_and_update_citation_matrix` returns
`False` without writing anything, no version-control step runs, and the
process exits with code 0 (the observed behavior logs and continues). -/
theorem c7_missing_file_fatal (cnt : List Char) :
    fix_and_update_citation_matrix cnt none
        = { file := none, wrote := false, missingReported := true,
            returned := false }
    ∧ runScript cnt none
        = { finalFile := none, fileWritten := false, missingFileError := true,
            gitRan := false, exitCode := 0 } :=
  ⟨rfl, rfl⟩

/-- Claim C8: `changed` is true iff the patched text differs byte-for-byte from
the original, and the run rewrites the file and performs the version-control
steps exactly when `changed` is true; when the patched text equals the
original, the run is a successful no-op leaving the file untouched. -/
theorem c8_changed_gates_effects (cnt html : List Char) :
    ((patchText cnt html).2 = true ↔ (patchText cnt html).1 ≠ html)
    ∧ (runScript cnt (some html)).gitRan = (patchText cnt html).2
    ∧ (runScript cnt (some html)).fileWritten = (patchText cnt html).2
    ∧ (runScript cnt (some html)).finalFile
        = some (if (patchText cnt html).2 = true
            then (patchText cnt html).1 else html)
    ∧ (runScript cnt (some html)).exitCode = 0 := by
  refine ⟨?_, ?_, ?_, ?_, ?_⟩
  · simp [patchText]
  all_goals
    cases h : (patchText cnt html).2 <;>
      simp [runScript, fix_and_update_citation_matrix, h]

/-- Claim C9: the count-update substitution is global: every occurrence of
`<span id="citation_count">...</span>` receives the fetched count, also spans
that sit outside any container region (here a document with two bare spans and
no container at all). -/
theorem c9_update_global (cnt : List Char) {a b P Q R : List Char}
    (hP : okSeg P = true) (ha : okText a = true) (hQ : okSeg Q = true)
    (hb : okText b = true) (hR : okSeg R = true) :
    (patchText cnt (P ++ (spanRegion a ++ (Q ++ (spanRegion b ++ R))))).1 =
      P ++ (spanRegion cnt ++ (Q ++ (spanRegion cnt ++ R))) :=
  patchText_twoSpans cnt hP ha hQ hb hR

/-- Claim C9, witness: a concrete document with two bare spans outside any
container; both spans hold `"42"` after the patch. -/
theorem c9_update_global_witness :
    (okSeg htmlPre = true ∧ okSeg bodyHtmlSuf = true)
    ∧ (patchText cnt42
        (htmlPre ++ (spanRegion cnt7 ++ (xSeg ++ (spanRegion cnt7 ++ bodyHtmlSuf))))).1
      = htmlPre ++ (spanRegion cnt42 ++ (xSeg ++ (spanRegion cnt42 ++ bodyHtmlSuf))) :=
  ⟨⟨by decide, by decide⟩,
    c9_update_global cnt42 (by decide) (by decide) (by decide) (by decide)
      (by decide)⟩

/-- Claim C10: `fix_and_update_citation_matrix` returns the same value `False`
for a missing file and for an unchanged document, so the orchestrator cannot
distinguish the two: in both cases no version-control step runs and the
process exits with code 0. -/
theorem c10_missing_file_vs_noop (cnt html : List Char)
    (h : (patchText cnt html).2 = false) :
    (fix_and_update_citation_matrix cnt none).returned = false
    ∧ (fix_and_update_citation_matrix cnt (some html)).returned = false
    ∧ runScript cnt none
        = { finalFile := none, fileWritten := false, missingFileError := true,
            gitRan := false, exitCode := 0 }
    ∧ (runScript cnt (some html)).gitRan = false
    ∧ (runScript cnt (some html)).exitCode = 0
    ∧ (runScript cnt (some html)).finalFile = some html := by
  refine ⟨rfl, ?_, rfl, ?_, ?_, ?_⟩ <;>
    simp [runScript, fix_and_update_citation_matrix, h]

/-- Claim C10, witness: the span-free, body-free document `x` is a no-op under
patching; its run and the missing-file run both skip version control and exit
with code 0. -/
theorem c10_missing_file_vs_noop_witness :
    (patchText cnt42 docPlain).2 = false
    ∧ (fix_and_update_citation_matrix cnt42 (some docPlain)).returned = false
    ∧ (runScript cnt42 (some docPlain)).gitRan = false
    ∧ (runScript cnt42 (some docPlain)).exitCode = 0 :=
  ⟨by decide,
    (c10_missing_file_vs_noop cnt42 docPlain (by decide)).2.1,
    (c10_missing_file_vs_noop cnt42 docPlain (by decide)).2.2.2.1,
    (c10_missing_file_vs_noop cnt42 docPlain (by decide)).2.2.2.2.1⟩

end CitationMatrix
